import Mathlib

/-!
Verification of the params2env configuration-resolution and replica-consistency
logic against its Go source (packages internal/config, internal/aws,
internal/validation and the cmd handlers create/modify/delete/read).

Go strings are modelled as Lean strings, except in the KMS-ARN rewriting code,
where splitting on a separator is central and strings are modelled as lists of
characters (GoStr). External collaborators (the YAML parser, the AWS SDK calls)
are modelled as oracle inputs: each network or parse step's outcome is an
explicit argument, and the command logic that sequences those outcomes is
translated from the source.
-/

set_option autoImplicit false

namespace Params2env

/-- Character-list model of a Go string, used by the KMS-ARN code. -/
abbrev GoStr := List Char

/-- Go strings.Split with a single-character separator: splits at every
occurrence of sep; Split of the empty string is one empty field. -/
def goSplit (sep : Char) : GoStr → List GoStr
  | [] => [[]]
  | c :: cs =>
    if c = sep then [] :: goSplit sep cs
    else
      match goSplit sep cs with
      | [] => [[]]
      | f :: rest => (c :: f) :: rest

theorem goSplit_cons (sep c : Char) (cs : GoStr) :
    goSplit sep (c :: cs) =
      if c = sep then [] :: goSplit sep cs
      else
        match goSplit sep cs with
        | [] => [[]]
        | f :: rest => (c :: f) :: rest := rfl

theorem goSplit_ne_nil (sep : Char) (s : GoStr) : goSplit sep s ≠ [] := by
  induction s with
  | nil => simp [goSplit]
  | cons c cs ih =>
    rw [goSplit_cons]
    cases h : goSplit sep cs with
    | nil => exact absurd h ih
    | cons f rest => by_cases hc : c = sep <;> simp [hc]

theorem goSplit_sepfree (sep : Char) (xs : GoStr) (h : sep ∉ xs) :
    goSplit sep xs = [xs] := by
  induction xs with
  | nil => rfl
  | cons c cs ih =>
    have hc : c ≠ sep := fun hcs => h (hcs ▸ List.mem_cons_self c cs)
    have hcs : sep ∉ cs := fun hm => h (List.mem_cons_of_mem c hm)
    rw [goSplit_cons, if_neg hc, ih hcs]

theorem goSplit_append (sep : Char) (xs ys : GoStr) (h : sep ∉ xs) :
    goSplit sep (xs ++ sep :: ys) = xs :: goSplit sep ys := by
  induction xs with
  | nil => rw [List.nil_append, goSplit_cons, if_pos rfl]
  | cons c cs ih =>
    have hc : c ≠ sep := fun hcs => h (hcs ▸ List.mem_cons_self c cs)
    have hcs : sep ∉ cs := fun hm => h (List.mem_cons_of_mem c hm)
    rw [List.cons_append, goSplit_cons, if_neg hc, ih hcs]

theorem sep_not_mem_of_mem_goSplit (sep : Char) (s : GoStr) (f : GoStr)
    (hf : f ∈ goSplit sep s) : sep ∉ f := by
  induction s generalizing f with
  | nil =>
    simp only [goSplit, List.mem_singleton] at hf
    subst hf; simp
  | cons c cs ih =>
    rw [goSplit_cons] at hf
    by_cases hc : c = sep
    · rw [if_pos hc] at hf
      rcases List.mem_cons.mp hf with rfl | hf2
      · simp
      · exact ih f hf2
    · rw [if_neg hc] at hf
      cases h : goSplit sep cs with
      | nil => exact absurd h (goSplit_ne_nil sep cs)
      | cons g rest =>
        rw [h] at hf
        have hg : sep ∉ g := ih g (h ▸ List.mem_cons_self g rest)
        have hrest : ∀ x ∈ rest, sep ∉ x := fun x hx =>
          ih x (h ▸ List.mem_cons_of_mem g hx)
        rcases List.mem_cons.mp hf with rfl | hf2
        · intro hm
          rcases List.mem_cons.mp hm with h2 | h2
          · exact hc h2.symm
          · exact hg h2
        · exact hrest f hf2

theorem getD_mem {α : Type} (l : List α) (n : Nat) (d : α) (h : n < l.length) :
    l.getD n d ∈ l := by
  induction l generalizing n with
  | nil => simp at h
  | cons a as ih =>
    cases n with
    | zero => simp [List.getD]
    | succ m =>
      have : m < as.length := by simpa using h
      simpa [List.getD] using Or.inr (by simpa [List.getD] using ih m this)

theorem isPrefixOf_append (p t : GoStr) : p.isPrefixOf (p ++ t) = true := by
  induction p with
  | nil => simp [List.isPrefixOf]
  | cons c cs ih => simp [List.isPrefixOf, ih]

/-- The constant arnPrefix of cmd/create.go. -/
def kmsArnPfx : GoStr := ("arn:aws:kms:").data

theorem goSplit_kmsArnPfx (t : GoStr) :
    goSplit ':' (kmsArnPfx ++ t) =
      ("arn").data :: ("aws").data :: ("kms").data :: goSplit ':' t := by
  have h : kmsArnPfx ++ t =
      ("arn").data ++ ':' :: (("aws").data ++ ':' :: (("kms").data ++ ':' :: t)) := rfl
  rw [h, goSplit_append ':' _ _ (by decide), goSplit_append ':' _ _ (by decide),
    goSplit_append ':' _ _ (by decide)]

/-- getReplicaKMSKeyID of cmd/create.go: if the KMS identifier starts with
arn:aws:kms: and splits into at least minARNParts = 6 colon-delimited fields,
rebuild the ARN with the replica region and fields 4 (account) and 5 (key id);
otherwise return the identifier unchanged. -/
def getReplicaKMSKeyID (kmsKeyID replicaRegion : GoStr) : GoStr :=
  if ¬ kmsArnPfx.isPrefixOf kmsKeyID then kmsKeyID
  else
    let arnParts := goSplit ':' kmsKeyID
    if arnParts.length < 6 then kmsKeyID
    else kmsArnPfx ++ replicaRegion ++ ':' :: arnParts.getD 4 [] ++ ':' :: arnParts.getD 5 []

theorem getReplicaKMSKeyID_eq (k r : GoStr) :
    getReplicaKMSKeyID k r =
      if kmsArnPfx.isPrefixOf k = true then
        if (goSplit ':' k).length < 6 then k
        else kmsArnPfx ++ r ++ ':' :: (goSplit ':' k).getD 4 [] ++ ':' :: (goSplit ':' k).getD 5 []
      else k := by
  unfold getReplicaKMSKeyID
  by_cases hp : kmsArnPfx.isPrefixOf k = true
  · rw [if_neg (not_not_intro hp), if_pos hp]
  · rw [if_pos hp, if_neg hp]

theorem goSplit_of_rebuilt (r a b : GoStr) (hr : ':' ∉ r) (ha : ':' ∉ a) (hb : ':' ∉ b) :
    goSplit ':' (kmsArnPfx ++ r ++ ':' :: a ++ ':' :: b) =
      [("arn").data, ("aws").data, ("kms").data, r, a, b] := by
  have hassoc : kmsArnPfx ++ r ++ ':' :: a ++ ':' :: b =
      kmsArnPfx ++ (r ++ ':' :: (a ++ ':' :: b)) := by
    simp [List.append_assoc]
  rw [hassoc, goSplit_kmsArnPfx, goSplit_append ':' r _ hr, goSplit_append ':' a _ ha,
    goSplit_sepfree ':' b hb]

theorem goSplit_rewrite_case (k r : GoStr) (hr : ':' ∉ r)
    (hl : ¬ (goSplit ':' k).length < 6) :
    goSplit ':' (kmsArnPfx ++ r ++ ':' :: (goSplit ':' k).getD 4 [] ++ ':' :: (goSplit ':' k).getD 5 []) =
      [("arn").data, ("aws").data, ("kms").data, r,
        (goSplit ':' k).getD 4 [], (goSplit ':' k).getD 5 []] := by
  have ha : ':' ∉ (goSplit ':' k).getD 4 [] :=
    sep_not_mem_of_mem_goSplit ':' k _ (getD_mem _ 4 [] (by omega))
  have hb : ':' ∉ (goSplit ':' k).getD 5 [] :=
    sep_not_mem_of_mem_goSplit ':' k _ (getD_mem _ 5 [] (by omega))
  exact goSplit_of_rebuilt r _ _ hr ha hb

/-- Follows the claim's wording, not the source (the source has no such check):
a structurally well-formed KMS key ARN has exactly 6 colon-delimited fields,
the 3rd field is literally kms, the account field (index 4) is non-empty, and
the resource field (index 5) begins with key/ with a non-empty suffix. -/
def kmsArnStructOK (k : GoStr) : Bool :=
  let parts := goSplit ':' k
  parts.length == 6 && parts.getD 2 [] == ("kms").data &&
    !(parts.getD 4 [] == ([] : GoStr)) &&
    ("key/").data.isPrefixOf (parts.getD 5 []) &&
    !(parts.getD 5 [] == ("key/").data)

/-- C3 counterexample: with a key ARN whose account field is empty — a
structural deviation under the claim's well-formedness conditions — the
replica rewrite of cmd/create.go raises no error at all: it returns a
rewritten identifier, different from its input and itself structurally
malformed. This refutes the claim that any structural deviation is a hard
InvalidKMSArn error and that the rewrite never silently produces a malformed
ARN. -/
theorem kms_rewrite_silently_malformed :
    kmsArnStructOK (("arn:aws:kms:us-east-1::key/abc").data) = false ∧
    getReplicaKMSKeyID (("arn:aws:kms:us-east-1::key/abc").data) (("eu-west-1").data) =
      ("arn:aws:kms:eu-west-1::key/abc").data ∧
    getReplicaKMSKeyID (("arn:aws:kms:us-east-1::key/abc").data) (("eu-west-1").data) ≠
      ("arn:aws:kms:us-east-1::key/abc").data ∧
    kmsArnStructOK
      (getReplicaKMSKeyID (("arn:aws:kms:us-east-1::key/abc").data) (("eu-west-1").data)) =
      false := by
  decide

/-- C3 amended: getReplicaKMSKeyID performs no structural validation and has
no error path. Identifiers without the arn:aws:kms: prefix, and prefixed
identifiers with fewer than 6 colon-delimited fields, are returned unchanged;
identifiers with at least 6 fields are rebuilt as
arn:aws:kms:(replica):(field 4):(field 5), silently dropping any further
fields, whether or not the input or output is structurally well-formed. -/
theorem kms_rewrite_no_validation (k r : GoStr) (hr : ':' ∉ r) :
    ((¬ kmsArnPfx.isPrefixOf k ∨ (goSplit ':' k).length < 6) → getReplicaKMSKeyID k r = k) ∧
    (kmsArnPfx.isPrefixOf k → ¬ (goSplit ':' k).length < 6 →
      goSplit ':' (getReplicaKMSKeyID k r) =
        [("arn").data, ("aws").data, ("kms").data, r,
          (goSplit ':' k).getD 4 [], (goSplit ':' k).getD 5 []]) := by
  constructor
  · rintro (hq | hl)
    · rw [getReplicaKMSKeyID_eq, if_neg hq]
    · rw [getReplicaKMSKeyID_eq]
      by_cases hp : kmsArnPfx.isPrefixOf k = true
      · rw [if_pos hp, if_pos hl]
      · rw [if_neg hp]
  · intro hp hl
    rw [getReplicaKMSKeyID_eq, if_pos hp, if_neg hl]
    exact goSplit_rewrite_case k r hr hl

/-- Witness for the C3 amended theorem at a 7-field ARN and region eu-west-1. -/
theorem kms_rewrite_no_validation_witness :
    (':' ∉ ("eu-west-1").data) ∧
    (((¬ kmsArnPfx.isPrefixOf (("arn:aws:kms:us-east-1:123456789012:key/abc:extra").data) ∨
        (goSplit ':' (("arn:aws:kms:us-east-1:123456789012:key/abc:extra").data)).length < 6) →
      getReplicaKMSKeyID (("arn:aws:kms:us-east-1:123456789012:key/abc:extra").data)
        (("eu-west-1").data) = ("arn:aws:kms:us-east-1:123456789012:key/abc:extra").data) ∧
    (kmsArnPfx.isPrefixOf (("arn:aws:kms:us-east-1:123456789012:key/abc:extra").data) →
      ¬ (goSplit ':' (("arn:aws:kms:us-east-1:123456789012:key/abc:extra").data)).length < 6 →
      goSplit ':' (getReplicaKMSKeyID (("arn:aws:kms:us-east-1:123456789012:key/abc:extra").data)
          (("eu-west-1").data)) =
        [("arn").data, ("aws").data, ("kms").data, ("eu-west-1").data,
          (goSplit ':' (("arn:aws:kms:us-east-1:123456789012:key/abc:extra").data)).getD 4 [],
          (goSplit ':' (("arn:aws:kms:us-east-1:123456789012:key/abc:extra").data)).getD 5 []])) :=
  ⟨by decide, kms_rewrite_no_validation _ _ (by decide)⟩

/-- C9: for every KMS identifier that does not start with arn:aws:kms: the
replica rewrite is the identity, and for every identifier and every
colon-free region (valid AWS regions never contain a colon), the rewrite is
idempotent: rewriting the rewritten identifier to the same region again
changes nothing. -/
theorem kms_rewrite_identity_and_idempotent (k r : GoStr) (hr : ':' ∉ r) :
    (¬ kmsArnPfx.isPrefixOf k → getReplicaKMSKeyID k r = k) ∧
    getReplicaKMSKeyID (getReplicaKMSKeyID k r) r = getReplicaKMSKeyID k r := by
  constructor
  · intro hq
    rw [getReplicaKMSKeyID_eq, if_neg hq]
  · by_cases hp : kmsArnPfx.isPrefixOf k = true
    · by_cases hl : (goSplit ':' k).length < 6
      · have hkr : getReplicaKMSKeyID k r = k := by
          rw [getReplicaKMSKeyID_eq, if_pos hp, if_pos hl]
        rw [hkr]
        exact hkr
      · have hout : getReplicaKMSKeyID k r =
            kmsArnPfx ++ r ++ ':' :: (goSplit ':' k).getD 4 [] ++ ':' :: (goSplit ':' k).getD 5 [] := by
          rw [getReplicaKMSKeyID_eq, if_pos hp, if_neg hl]
        have hsplit2 : goSplit ':' (getReplicaKMSKeyID k r) =
            [("arn").data, ("aws").data, ("kms").data, r,
              (goSplit ':' k).getD 4 [], (goSplit ':' k).getD 5 []] := by
          rw [hout]
          exact goSplit_rewrite_case k r hr hl
        have hpre : kmsArnPfx.isPrefixOf (getReplicaKMSKeyID k r) = true := by
          rw [hout]
          have hassoc : kmsArnPfx ++ r ++ ':' :: (goSplit ':' k).getD 4 [] ++ ':' :: (goSplit ':' k).getD 5 [] =
              kmsArnPfx ++ (r ++ ':' :: ((goSplit ':' k).getD 4 [] ++ ':' :: (goSplit ':' k).getD 5 [])) := by
            simp [List.append_assoc]
          rw [hassoc]
          exact isPrefixOf_append _ _
        have hlen : ¬ (goSplit ':' (getReplicaKMSKeyID k r)).length < 6 := by
          rw [hsplit2]; simp
        rw [getReplicaKMSKeyID_eq (getReplicaKMSKeyID k r) r, if_pos hpre, if_neg hlen, hsplit2]
        simp only [List.getD_cons_succ, List.getD_cons_zero]
        exact hout.symm
    · have hkr : getReplicaKMSKeyID k r = k := by
        rw [getReplicaKMSKeyID_eq, if_neg hp]
      rw [hkr]
      exact hkr

/-- Witness for C9 at a well-formed key ARN and at an alias identifier. -/
theorem kms_rewrite_identity_and_idempotent_witness :
    (':' ∉ ("eu-west-1").data) ∧
    ((¬ kmsArnPfx.isPrefixOf (("alias/my-key").data) →
        getReplicaKMSKeyID (("alias/my-key").data) (("eu-west-1").data) = ("alias/my-key").data) ∧
      getReplicaKMSKeyID (getReplicaKMSKeyID (("alias/my-key").data) (("eu-west-1").data))
          (("eu-west-1").data) =
        getReplicaKMSKeyID (("alias/my-key").data) (("eu-west-1").data)) :=
  ⟨by decide, kms_rewrite_identity_and_idempotent _ _ (by decide)⟩

/-- ParamConfig of internal/config/config.go. -/
structure ParamConfig where
  name : String
  env : String
  region : String
  output : String
deriving DecidableEq, Repr

/-- Config of internal/config/config.go. Field renames forced by Lean keywords
and identifier restrictions: pfx is the Go field Prefix, envPfx is EnvPrefix.
Upper is a Go *bool, modelled as Option Bool. -/
structure Config where
  region : String
  replica : String
  pfx : String
  output : String
  file : String
  upper : Option Bool
  envPfx : String
  role : String
  kms : String
  params : List ParamConfig
deriving DecidableEq, Repr

/-- The zero value of the Go Config struct (var cfg Config). -/
def Config.empty : Config :=
  ⟨"", "", "", "", "", none, "", "", "", []⟩

/-- mergeConfig of internal/config/config.go: local settings overwrite global
ones field by field; non-empty strings, present (non-nil) Upper, and non-empty
Params are the overwrite signals; Params replaces wholesale. -/
def mergeConfig (g l : Config) : Config :=
  let g := if l.region ≠ "" then { g with region := l.region } else g
  let g := if l.replica ≠ "" then { g with replica := l.replica } else g
  let g := if l.pfx ≠ "" then { g with pfx := l.pfx } else g
  let g := if l.output ≠ "" then { g with output := l.output } else g
  let g := if l.file ≠ "" then { g with file := l.file } else g
  let g := if l.envPfx ≠ "" then { g with envPfx := l.envPfx } else g
  let g := if l.role ≠ "" then { g with role := l.role } else g
  let g := if l.kms ≠ "" then { g with kms := l.kms } else g
  let g := if l.upper.isSome then { g with upper := l.upper } else g
  if l.params.length > 0 then { g with params := l.params } else g

/-- The params loop of Config.Validate: the first parameter with an empty
name, if any, yields the invalid-configuration error naming its index. -/
def validateParams : Nat → List ParamConfig → Except String Unit
  | _, [] => .ok ()
  | i, p :: rest =>
    if p.name = "" then
      .error ("invalid configuration: parameter at index " ++ toString i ++ " missing name")
    else validateParams (i + 1) rest

/-- Validate of internal/config/config.go: every param needs a non-empty
name, and output, if present, must be env or file. -/
def Config.validate (c : Config) : Except String Unit :=
  match validateParams 0 c.params with
  | .error m => .error m
  | .ok _ =>
    if c.output ≠ "" ∧ c.output ≠ "env" ∧ c.output ≠ "file" then
      .error ("invalid configuration: invalid output format " ++ c.output)
    else .ok ()

/-- Outcome of reading and YAML-parsing one configuration file. The YAML
parser is an external collaborator; its verdict on a given file is an oracle
input. failed covers both an unreadable file and a YAML parse error. -/
inductive LoadResult where
  | absent
  | failed (msg : String)
  | parsed (cfg : Config)
deriving DecidableEq, Repr

/-- The home-directory block of LoadConfig (internal/config/config.go lines
99-111): none models an os.UserHomeDir error (treated as no home config, not
an error); load or validation failure of a present file is a hard error. -/
def loadHome : Option LoadResult → Except String Config
  | none => .ok Config.empty
  | some .absent => .ok Config.empty
  | some (.failed m) => .error ("failed to load global config: " ++ m)
  | some (.parsed c) =>
    match c.validate with
    | .error m => .error ("invalid global config: " ++ m)
    | .ok _ => .ok c

/-- LoadConfig of internal/config/config.go: resolve the home config, then
load, validate and merge the working-directory config over it; any load or
validation failure aborts with an error. -/
def loadConfig (homeRes : Option LoadResult) (cwdRes : LoadResult) : Except String Config :=
  match loadHome homeRes with
  | .error m => .error m
  | .ok cfg =>
    match cwdRes with
    | .absent => .ok cfg
    | .failed m => .error ("failed to load local config: " ++ m)
    | .parsed c =>
      match c.validate with
      | .error m => .error ("invalid local config: " ++ m)
      | .ok _ => .ok (mergeConfig cfg c)

/-- The effective global document: the parsed home config, or the zero Config
when the home file is absent or the home directory is unknown. -/
def homeCfgOf : Option LoadResult → Config
  | some (.parsed c) => c
  | _ => Config.empty

/-- The effective local document: the parsed working-directory config, or the
zero Config when that file is absent. -/
def cwdCfgOf : LoadResult → Config
  | .parsed c => c
  | _ => Config.empty

theorem mergeConfig_empty_right (g : Config) : mergeConfig g Config.empty = g := rfl

theorem config_empty_validate : Config.empty.validate = .ok () := rfl

theorem loadHome_ok (homeRes : Option LoadResult) (g : Config)
    (h : loadHome homeRes = .ok g) :
    g = homeCfgOf homeRes ∧ (homeCfgOf homeRes).validate = .ok () := by
  cases homeRes with
  | none =>
    simp only [loadHome, Except.ok.injEq] at h
    exact ⟨h.symm, config_empty_validate⟩
  | some lr =>
    cases lr with
    | absent =>
      simp only [loadHome, Except.ok.injEq] at h
      exact ⟨h.symm, config_empty_validate⟩
    | failed m => simp [loadHome] at h
    | parsed c =>
      simp only [loadHome] at h
      cases hv : c.validate with
      | error m => rw [hv] at h; simp at h
      | ok u =>
        rw [hv] at h
        simp only [Except.ok.injEq] at h
        cases u
        exact ⟨h.symm, hv⟩

theorem validateParams_error_of_empty_name (ps : List ParamConfig)
    (h : ∃ p ∈ ps, p.name = "") (i : Nat) :
    ∃ m, validateParams i ps = .error m := by
  induction ps generalizing i with
  | nil => simp at h
  | cons p rest ih =>
    by_cases hp : p.name = ""
    · exact ⟨_, by rw [validateParams, if_pos hp]⟩
    · have h2 : ∃ q ∈ rest, q.name = "" := by
        rcases h with ⟨q, hq, hqe⟩
        rcases List.mem_cons.mp hq with rfl | hq2
        · exact absurd hqe hp
        · exact ⟨q, hq2, hqe⟩
      rcases ih h2 (i + 1) with ⟨m, hm⟩
      exact ⟨m, by rw [validateParams, if_neg hp]; exact hm⟩

theorem validate_error_of_empty_name (c : Config) (h : ∃ p ∈ c.params, p.name = "") :
    ∃ m, c.validate = .error m := by
  rcases validateParams_error_of_empty_name c.params h 0 with ⟨m, hm⟩
  exact ⟨m, by rw [Config.validate, hm]⟩

/-- C2: merging a local config onto a global one is field-wise last-writer
precedence — every field of the result is the local field when it is set
(non-empty string, non-nil upper, non-empty params list) and the global field
otherwise, with the params list replaced wholesale. -/
theorem merge_precedence (g l : Config) :
    (mergeConfig g l).region = (if l.region = "" then g.region else l.region) ∧
    (mergeConfig g l).replica = (if l.replica = "" then g.replica else l.replica) ∧
    (mergeConfig g l).pfx = (if l.pfx = "" then g.pfx else l.pfx) ∧
    (mergeConfig g l).output = (if l.output = "" then g.output else l.output) ∧
    (mergeConfig g l).file = (if l.file = "" then g.file else l.file) ∧
    (mergeConfig g l).envPfx = (if l.envPfx = "" then g.envPfx else l.envPfx) ∧
    (mergeConfig g l).role = (if l.role = "" then g.role else l.role) ∧
    (mergeConfig g l).kms = (if l.kms = "" then g.kms else l.kms) ∧
    (mergeConfig g l).upper = (if l.upper = none then g.upper else l.upper) ∧
    (mergeConfig g l).params = (if l.params = [] then g.params else l.params) := by
  refine ⟨?_, ?_, ?_, ?_, ?_, ?_, ?_, ?_, ?_, ?_⟩
  · by_cases h : l.region = "" <;> simp [mergeConfig, apply_ite Config.region, h]
  · by_cases h : l.replica = "" <;> simp [mergeConfig, apply_ite Config.replica, h]
  · by_cases h : l.pfx = "" <;> simp [mergeConfig, apply_ite Config.pfx, h]
  · by_cases h : l.output = "" <;> simp [mergeConfig, apply_ite Config.output, h]
  · by_cases h : l.file = "" <;> simp [mergeConfig, apply_ite Config.file, h]
  · by_cases h : l.envPfx = "" <;> simp [mergeConfig, apply_ite Config.envPfx, h]
  · by_cases h : l.role = "" <;> simp [mergeConfig, apply_ite Config.role, h]
  · by_cases h : l.kms = "" <;> simp [mergeConfig, apply_ite Config.kms, h]
  · by_cases h : l.upper = none <;>
      simp [mergeConfig, apply_ite Config.upper, h, Option.isSome_iff_ne_none]
  · by_cases h : l.params = [] <;>
      simp [mergeConfig, apply_ite Config.params, h, List.length_pos]

/-- C5: configuration resolution fails fast — if either present file fails to
read or parse, or either parsed document has a params entry with an empty
name, loadConfig returns an error and no Config; and whenever it does return
a Config, that value is the complete merge of the fully validated documents,
never a partial state. -/
theorem loadconfig_failfast (homeRes : Option LoadResult) (cwdRes : LoadResult) :
    (∀ m, homeRes = some (.failed m) → ∃ e, loadConfig homeRes cwdRes = .error e) ∧
    (∀ m, cwdRes = .failed m → ∃ e, loadConfig homeRes cwdRes = .error e) ∧
    (∀ c, homeRes = some (.parsed c) → (∃ p ∈ c.params, p.name = "") →
      ∃ e, loadConfig homeRes cwdRes = .error e) ∧
    (∀ c, cwdRes = .parsed c → (∃ p ∈ c.params, p.name = "") →
      ∃ e, loadConfig homeRes cwdRes = .error e) ∧
    (∀ cfg, loadConfig homeRes cwdRes = .ok cfg →
      (homeCfgOf homeRes).validate = .ok () ∧ (cwdCfgOf cwdRes).validate = .ok () ∧
        cfg = mergeConfig (homeCfgOf homeRes) (cwdCfgOf cwdRes)) := by
  refine ⟨?_, ?_, ?_, ?_, ?_⟩
  · intro m hm
    subst hm
    exact ⟨_, rfl⟩
  · intro m hm
    subst hm
    cases h : loadHome homeRes with
    | error e => exact ⟨e, by simp only [loadConfig, h]⟩
    | ok g =>
      exact ⟨"failed to load local config: " ++ m, by simp only [loadConfig, h]⟩
  · intro c hc hempty
    subst hc
    rcases validate_error_of_empty_name c hempty with ⟨m, hm⟩
    exact ⟨"invalid global config: " ++ m, by simp only [loadConfig, loadHome, hm]⟩
  · intro c hc hempty
    subst hc
    rcases validate_error_of_empty_name c hempty with ⟨m, hm⟩
    cases h : loadHome homeRes with
    | error e => exact ⟨e, by simp only [loadConfig, h]⟩
    | ok g =>
      exact ⟨"invalid local config: " ++ m, by simp only [loadConfig, h, hm]⟩
  · intro cfg hok
    cases h : loadHome homeRes with
    | error e =>
      have hlc : loadConfig homeRes cwdRes = .error e := by
        simp only [loadConfig, h]
      rw [hlc] at hok
      exact Except.noConfusion hok
    | ok g =>
      rcases loadHome_ok homeRes g h with ⟨hg, hgv⟩
      subst hg
      cases cwdRes with
      | absent =>
        have hlc : loadConfig homeRes LoadResult.absent = .ok (homeCfgOf homeRes) := by
          simp only [loadConfig, h]
        rw [hlc] at hok
        injection hok with hcfg
        subst hcfg
        exact ⟨hgv, config_empty_validate, (mergeConfig_empty_right _).symm⟩
      | failed m =>
        have hlc : loadConfig homeRes (LoadResult.failed m) =
            .error ("failed to load local config: " ++ m) := by
          simp only [loadConfig, h]
        rw [hlc] at hok
        exact Except.noConfusion hok
      | parsed c =>
        cases hv : c.validate with
        | error m =>
          have hlc : loadConfig homeRes (LoadResult.parsed c) =
              .error ("invalid local config: " ++ m) := by
            simp only [loadConfig, h, hv]
          rw [hlc] at hok
          exact Except.noConfusion hok
        | ok u =>
          cases u
          have hlc : loadConfig homeRes (LoadResult.parsed c) =
              .ok (mergeConfig (homeCfgOf homeRes) c) := by
            simp only [loadConfig, h, hv]
          rw [hlc] at hok
          injection hok with hcfg
          subst hcfg
          exact ⟨hgv, hv, rfl⟩

/-- Modelled Go error value: msg is the error text; isNotFound models the
verdict of errors.Is(err, aws.ErrNotFound). Modelled from the spec: the
sentinel ErrNotFound itself (the NotFoundError of spec section 7) is declared
in a repository file that is not under src/; an error value has
isNotFound = true exactly when its wrap chain (fmt.Errorf with the %w verb)
contains that sentinel. -/
structure GoError where
  msg : String
  isNotFound : Bool
deriving DecidableEq, Repr

/-- SDK-level outcome of an ssm DeleteParameter call, as discriminated by
internal/aws/ssm.go: a types.ParameterNotFound error, a smithy APIError with
its code, or any other error. -/
inductive SdkDeleteErr where
  | parameterNotFound
  | apiError (code : String)
  | other (msg : String)
deriving DecidableEq, Repr

/-- DeleteParameter of internal/aws/ssm.go (lines 126-147). Note that every
branch builds its error with fmt.Errorf without %w-wrapping the ErrNotFound
sentinel (the ParameterNotFound branch writes a fresh message string), so no
produced error satisfies errors.Is(err, ErrNotFound): isNotFound is false in
all branches. -/
def deleteParameter (name : String) (res : Option SdkDeleteErr) : Option GoError :=
  match res with
  | none => none
  | some .parameterNotFound =>
    some ⟨"ParameterNotFound: parameter " ++ name ++ " does not exist", false⟩
  | some (.apiError code) =>
    if code = "AccessDeniedException" then
      some ⟨"AccessDenied: insufficient permissions to delete parameter " ++ name, false⟩
    else some ⟨"failed to delete parameter " ++ name ++ ": " ++ code, false⟩
  | some (.other m) =>
    some ⟨"failed to delete parameter " ++ name ++ ": " ++ m, false⟩

/-- CreateParameter of internal/aws/ssm.go: any PutParameter error is wrapped;
no sentinel is involved. -/
def createParameter (name : String) (sdk : Option String) : Option GoError :=
  match sdk with
  | none => none
  | some m => some ⟨"failed to create parameter " ++ name ++ ": " ++ m, false⟩

/-- ModifyParameter of internal/aws/ssm.go: any PutParameter error is wrapped;
no sentinel is involved. -/
def modifyParameter (name : String) (sdk : Option String) : Option GoError :=
  match sdk with
  | none => none
  | some m => some ⟨"failed to modify parameter " ++ name ++ ": " ++ m, false⟩

/-- ValidateRegions of internal/validation/aws.go: the replica region, when
set, must differ from the primary region. -/
def validateRegions (primary replica : String) : Option GoError :=
  if replica ≠ "" ∧ primary = replica then
    some ⟨"replica region " ++ replica ++ " cannot be the same as primary region " ++ primary, false⟩
  else none

/-- The result of a command handler: none is success (a nil error from RunE),
some e is the error the invocation reports. -/
abbrev CmdResult := Option GoError

/-- How every handler reacts to a LoadConfig error before merging: create and
modify abort, read and delete print a warning and continue with a nil config.
cfgOrNil maps the LoadConfig outcome to the nil-able config the warn-and-
continue handlers keep. -/
def cfgOrNil (res : Except String Config) : Option Config :=
  match res with
  | .ok c => some c
  | .error _ => none

/-! ### delete command (cmd/delete.go) -/

/-- The delete command flag set (path, region, role, replica). -/
structure DeleteFlags where
  path : String
  region : String
  role : String
  replica : String
deriving DecidableEq, Repr

/-- mergeDeleteConfig of cmd/delete.go: flags take precedence; empty flags are
filled from the config; a nil config leaves the flags unchanged. -/
def mergeDeleteConfig (cfg : Option Config) (f : DeleteFlags) : DeleteFlags :=
  match cfg with
  | none => f
  | some c =>
    let f := if f.region = "" then { f with region := c.region } else f
    let f := if f.replica = "" then { f with replica := c.replica } else f
    if f.role = "" then { f with role := c.role } else f

/-- ensureDeleteRegionIsSet of cmd/delete.go: fall back to AWS_REGION, fail if
still empty. -/
def ensureDeleteRegionIsSet (region env : String) : Except GoError String :=
  if region = "" then
    if env = "" then
      .error ⟨"AWS region must be specified via --region, config file, or AWS_REGION environment variable", false⟩
    else .ok env
  else .ok region

/-- The AWS-call outcomes a delete invocation can consume: client construction
and SDK delete outcome for the primary and the replica region. -/
structure DeleteOracle where
  primaryClient : Option GoError
  primarySdk : Option SdkDeleteErr
  replicaClient : Option GoError
  replicaSdk : Option SdkDeleteErr
deriving DecidableEq, Repr

/-- deleteInPrimaryRegion of cmd/delete.go: client failure aborts; a delete
error satisfying errors.Is(err, ErrNotFound) gets a dedicated message; any
delete error is fatal. -/
def deleteInPrimaryRegion (path region : String) (client : Option GoError)
    (sdk : Option SdkDeleteErr) : CmdResult :=
  match client with
  | some e => some ⟨"failed to create AWS client: " ++ e.msg, e.isNotFound⟩
  | none =>
    match deleteParameter path sdk with
    | none => none
    | some err =>
      if err.isNotFound then
        some ⟨"parameter " ++ path ++ " not found in region " ++ region, false⟩
      else some ⟨"failed to delete parameter in region " ++ region ++ ": " ++ err.msg, err.isNotFound⟩

/-- deleteInReplicaRegion of cmd/delete.go: client failure aborts; a delete
error satisfying errors.Is(err, ErrNotFound) is downgraded to a warning and
overall success; any other delete error is fatal. -/
def deleteInReplicaRegion (path replica : String) (client : Option GoError)
    (sdk : Option SdkDeleteErr) : CmdResult :=
  match client with
  | some e => some ⟨"failed to create AWS client for replica region: " ++ e.msg, e.isNotFound⟩
  | none =>
    match deleteParameter path sdk with
    | none => none
    | some err =>
      if err.isNotFound then none
      else some ⟨"failed to delete parameter in replica region " ++ replica ++ ": " ++ err.msg, err.isNotFound⟩

/-- The body of runDelete (cmd/delete.go) after the config warning: merge,
resolve the region, delete in the primary region, then in the replica region
when one is set. -/
def runDeleteCore (cfg : Option Config) (env : String) (f0 : DeleteFlags)
    (o : DeleteOracle) : CmdResult :=
  let f := mergeDeleteConfig cfg f0
  match ensureDeleteRegionIsSet f.region env with
  | .error e => some e
  | .ok region =>
    match deleteInPrimaryRegion f.path region o.primaryClient o.primarySdk with
    | some e => some e
    | none =>
      if f.replica ≠ "" then deleteInReplicaRegion f.path f.replica o.replicaClient o.replicaSdk
      else none

/-- runDelete of cmd/delete.go: a LoadConfig error only prints a warning and
the run continues with a nil config. -/
def runDelete (cfgRes : Except String Config) (env : String) (f : DeleteFlags)
    (o : DeleteOracle) : CmdResult :=
  runDeleteCore (cfgOrNil cfgRes) env f o

/-! ### create command (cmd/create.go) -/

/-- The create command flag set. -/
structure CreateFlags where
  path : String
  value : String
  type : String
  desc : String
  kms : String
  region : String
  role : String
  replica : String
  overwrite : Bool
deriving DecidableEq, Repr

/-- mergeCreateConfig of cmd/create.go. -/
def mergeCreateConfig (cfg : Option Config) (f : CreateFlags) : CreateFlags :=
  match cfg with
  | none => f
  | some c =>
    let f := if f.region = "" then { f with region := c.region } else f
    let f := if f.replica = "" then { f with replica := c.replica } else f
    let f := if f.role = "" then { f with role := c.role } else f
    if f.kms = "" ∧ c.kms ≠ "" then { f with kms := c.kms } else f

/-- Go strings.TrimSpace: strip leading and trailing whitespace (modelled
structurally so that concrete evaluation reduces in the kernel). -/
def goTrimSpace (s : String) : String :=
  String.mk (((s.data.dropWhile Char.isWhitespace).reverse.dropWhile Char.isWhitespace).reverse)

/-- validateParameterType of cmd/create.go: trim the type and require
String or SecureString (the aws package constants). -/
def validateParameterType (t : String) : Except GoError String :=
  let s := goTrimSpace t
  if s ≠ "String" ∧ s ≠ "SecureString" then
    .error ⟨"invalid parameter type: " ++ s, false⟩
  else .ok s

/-- ensureRegionIsSet of cmd/create.go. -/
def ensureRegionIsSet (region env : String) : Except GoError String :=
  if region = "" then
    if env = "" then
      .error ⟨"AWS region must be specified via --region, config file, or AWS_REGION environment variable", false⟩
    else .ok env
  else .ok region

/-- The AWS-call outcomes a create invocation can consume. -/
structure CreateOracle where
  primaryClient : Option GoError
  primaryPut : Option String
  replicaClient : Option GoError
  replicaPut : Option String
deriving DecidableEq, Repr

/-- createInPrimaryRegion of cmd/create.go. -/
def createInPrimaryRegion (path : String) (client : Option GoError)
    (put : Option String) : CmdResult :=
  match client with
  | some e => some ⟨"failed to create AWS client: " ++ e.msg, e.isNotFound⟩
  | none =>
    match createParameter path put with
    | none => none
    | some err => some ⟨"failed to create parameter: " ++ err.msg, err.isNotFound⟩

/-- createInReplicaRegion of cmd/create.go: builds the replica client, derives
the replica KMS key id with getReplicaKMSKeyID when a KMS key is set (the
derived value is passed to the store call, whose outcome the oracle gives),
and creates the parameter with the identical payload. -/
def createInReplicaRegion (path : String) (client : Option GoError)
    (put : Option String) : CmdResult :=
  match client with
  | some e => some ⟨"failed to create AWS client for replica region: " ++ e.msg, e.isNotFound⟩
  | none =>
    match createParameter path put with
    | none => none
    | some err => some ⟨"failed to create parameter in replica region: " ++ err.msg, err.isNotFound⟩

/-- The body of runCreate (cmd/create.go) after the config step: merge,
validate the type, resolve the region, create in the primary region, then in
the replica region when one is set. No replica-equals-primary check is made. -/
def runCreateCore (cfg : Option Config) (env : String) (f0 : CreateFlags)
    (o : CreateOracle) : CmdResult :=
  let f := mergeCreateConfig cfg f0
  match validateParameterType f.type with
  | .error e => some e
  | .ok t =>
    let f := { f with type := t }
    match ensureRegionIsSet f.region env with
    | .error e => some e
    | .ok _ =>
      match createInPrimaryRegion f.path o.primaryClient o.primaryPut with
      | some e => some e
      | none =>
        if f.replica ≠ "" then createInReplicaRegion f.path o.replicaClient o.replicaPut
        else none

/-- runCreate of cmd/create.go: a LoadConfig error is fatal. -/
def runCreate (cfgRes : Except String Config) (env : String) (f : CreateFlags)
    (o : CreateOracle) : CmdResult :=
  match cfgRes with
  | .error m => some ⟨"failed to load configuration: " ++ m, false⟩
  | .ok c => runCreateCore (some c) env f o

/-! ### modify command (modify.go, src/unnamed/part_008) -/

/-- The modify command flag set. -/
structure ModifyFlags where
  path : String
  value : String
  desc : String
  region : String
  role : String
  replica : String
deriving DecidableEq, Repr

/-- mergeModifyConfig of modify.go. -/
def mergeModifyConfig (cfg : Option Config) (f : ModifyFlags) : ModifyFlags :=
  match cfg with
  | none => f
  | some c =>
    let f := if f.region = "" then { f with region := c.region } else f
    let f := if f.replica = "" then { f with replica := c.replica } else f
    if f.role = "" then { f with role := c.role } else f

/-- ensureModifyRegionIsSet of modify.go. -/
def ensureModifyRegionIsSet (region env : String) : Except GoError String :=
  if region = "" then
    if env = "" then
      .error ⟨"AWS region must be specified via --region, config file, or AWS_REGION environment variable", false⟩
    else .ok env
  else .ok region

/-- The AWS-call outcomes a modify invocation can consume. -/
structure ModifyOracle where
  primaryClient : Option GoError
  primaryPut : Option String
  replicaClient : Option GoError
  replicaPut : Option String
deriving DecidableEq, Repr

/-- modifyInPrimaryRegion of modify.go. -/
def modifyInPrimaryRegion (path region : String) (client : Option GoError)
    (put : Option String) : CmdResult :=
  match client with
  | some e => some ⟨"failed to create AWS client: " ++ e.msg, e.isNotFound⟩
  | none =>
    match modifyParameter path put with
    | none => none
    | some err =>
      if err.isNotFound then
        some ⟨"parameter " ++ path ++ " not found in region " ++ region, false⟩
      else some ⟨"failed to modify parameter: " ++ err.msg, err.isNotFound⟩

/-- modifyInReplicaRegion of modify.go: every replica failure, the not-found
case included, is an error. -/
def modifyInReplicaRegion (path replica : String) (client : Option GoError)
    (put : Option String) : CmdResult :=
  match client with
  | some e => some ⟨"failed to create AWS client for replica region: " ++ e.msg, e.isNotFound⟩
  | none =>
    match modifyParameter path put with
    | none => none
    | some err =>
      if err.isNotFound then
        some ⟨"parameter " ++ path ++ " not found in replica region " ++ replica, false⟩
      else some ⟨"failed to modify parameter in replica region: " ++ err.msg, err.isNotFound⟩

/-- The body of runModify (modify.go) after the config step: merge, resolve
the region, check the replica region differs from the primary
(validation.ValidateRegions), modify in the primary region, then in the
replica region when one is set. -/
def runModifyCore (cfg : Option Config) (env : String) (f0 : ModifyFlags)
    (o : ModifyOracle) : CmdResult :=
  let f := mergeModifyConfig cfg f0
  match ensureModifyRegionIsSet f.region env with
  | .error e => some e
  | .ok region =>
    match validateRegions region f.replica with
    | some e => some e
    | none =>
      match modifyInPrimaryRegion f.path region o.primaryClient o.primaryPut with
      | some e => some e
      | none =>
        if f.replica ≠ "" then modifyInReplicaRegion f.path f.replica o.replicaClient o.replicaPut
        else none

/-- runModify of modify.go: a LoadConfig error is fatal. -/
def runModify (cfgRes : Except String Config) (env : String) (f : ModifyFlags)
    (o : ModifyOracle) : CmdResult :=
  match cfgRes with
  | .error m => some ⟨"failed to load configuration: " ++ m, false⟩
  | .ok c => runModifyCore (some c) env f o

/-! ### read command (cmd/read.go) -/

/-- Trailing-slash stripping of Go path/filepath.Base. -/
def stripTrailingSlashes (cs : List Char) : List Char :=
  ((cs.reverse).dropWhile (fun c => c = '/')).reverse

/-- The segment after the last slash, for Go path/filepath.Base. -/
def afterLastSlash (cs : List Char) : List Char :=
  ((cs.reverse).takeWhile (fun c => c ≠ '/')).reverse

/-- Go path/filepath.Base on a Unix path: the empty path gives a dot, a path
of only slashes gives a slash, otherwise the last element after stripping
trailing slashes. -/
def filepathBase (p : String) : String :=
  if p = "" then "."
  else
    let cs := stripTrailingSlashes p.data
    if cs = [] then "/"
    else String.mk (afterLastSlash cs)

/-- The read command flag set: path, region, role, file, upper (default
true), pfx is the --env-prefix flag (readPrefix), envName the --env flag. -/
structure ReadFlags where
  path : String
  region : String
  role : String
  file : String
  upper : Bool
  pfx : String
  envName : String
deriving DecidableEq, Repr

/-- Go strings.ToUpper, for the ASCII names exercised here: upper-case every
character (modelled with Char.toUpper, which maps ASCII letters; the full
Unicode case table of the Go function is not modelled). -/
def goToUpper (s : String) : String :=
  String.mk (s.data.map Char.toUpper)

/-- One iteration of the name derivation in the params branch of readCmd
(cmd/read.go lines 85-101), acting on the mutable readPrefix and readUpper
state: base name from the param path, overridden by the param env name; the
global env prefix fills an empty readPrefix; a non-empty prefix is joined
with an underscore; a non-nil config upper overwrites readUpper; upper-casing
comes last. Returns the derived name with the updated readPrefix and
readUpper values. -/
def readEntryName (p : ParamConfig) (cfgEnvPfx : String) (cfgUpper : Option Bool)
    (pfx0 : String) (upper0 : Bool) : String × String × Bool :=
  let name := filepathBase p.name
  let name := if p.env ≠ "" then p.env else name
  let pfx := if cfgEnvPfx ≠ "" ∧ pfx0 = "" then cfgEnvPfx else pfx0
  let name := if pfx ≠ "" then pfx ++ "_" ++ name else name
  let upper := match cfgUpper with | some b => b | none => upper0
  let name := if upper then goToUpper name else name
  (name, pfx, upper)

/-- The per-parameter region resolution in the params branch of readCmd:
param region, else config region, else AWS_REGION. -/
def readParamRegion (paramRegion cfgRegion env : String) : String :=
  let region := if paramRegion = "" then cfgRegion else paramRegion
  if region = "" then env else region

/-- The AWS-call outcomes a read invocation can consume: the client
construction verdict per region and the GetParameter outcome per parameter
name (the ssm-layer GetParameter already wraps SDK errors). -/
structure ReadOracle where
  client : String → Option GoError
  get : String → Except GoError String

/-- The params loop of readCmd (cmd/read.go lines 59-103): resolve the region
for each config param, build a client, get the value, derive the name with
the running readPrefix and readUpper state, and collect the export lines
(Go formats the value with the %q verb; the escaping that %q applies to
embedded quotes is not modelled); the first failure aborts. -/
def readParamsLoop (cfgRegion cfgEnvPfx : String) (cfgUpper : Option Bool)
    (env : String) (o : ReadOracle) :
    List ParamConfig → String → Bool → Except GoError (List String × String × Bool)
  | [], pfx, upper => .ok ([], pfx, upper)
  | p :: rest, pfx, upper =>
    let region := readParamRegion p.region cfgRegion env
    if region = "" then
      .error ⟨"AWS region must be specified via config, --region, or AWS_REGION environment variable", false⟩
    else
      match o.client region with
      | some e => .error ⟨"failed to create AWS client: " ++ e.msg, e.isNotFound⟩
      | none =>
        match o.get p.name with
        | .error e => .error ⟨"failed to get parameter " ++ p.name ++ ": " ++ e.msg, e.isNotFound⟩
        | .ok value =>
          match readEntryName p cfgEnvPfx cfgUpper pfx upper with
          | (nm, pfx2, upper2) =>
            match readParamsLoop cfgRegion cfgEnvPfx cfgUpper env o rest pfx2 upper2 with
            | .error e => .error e
            | .ok (outs, pfx3, upper3) =>
              .ok (("export " ++ nm ++ "=\"" ++ value ++ "\"") :: outs, pfx3, upper3)

/-- The flag merge of the single-parameter branch of readCmd (cmd/read.go
lines 147-158): region, role and env prefix are filled from the config when
the flag is empty; the config upper is not consulted in this branch. -/
def mergeReadFlags (cfg : Option Config) (f : ReadFlags) : ReadFlags :=
  match cfg with
  | none => f
  | some c =>
    let f := if f.region = "" then { f with region := c.region } else f
    let f := if f.role = "" then { f with role := c.role } else f
    if f.pfx = "" then { f with pfx := c.envPfx } else f

/-- The region fallback of the single-parameter branch of readCmd (cmd/read.go
lines 161-166). -/
def readRegionOf (region env : String) : Except GoError String :=
  if region = "" then
    if env = "" then
      .error ⟨"AWS region must be specified via --region, config file, or AWS_REGION environment variable", false⟩
    else .ok env
  else .ok region

/-- The name derivation of the single-parameter branch of readCmd (cmd/read.go
lines 181-191), applied to the merged flags: base name from the path,
overridden by the --env flag; a non-empty prefix joined with an underscore;
upper-casing last. -/
def singleReadName (f : ReadFlags) : String :=
  let name := filepathBase f.path
  let name := if f.envName ≠ "" then f.envName else name
  let name := if f.pfx ≠ "" then f.pfx ++ "_" ++ name else name
  if f.upper then goToUpper name else name

/-- What a successful read invocation produces: the formatted output and the
effective output file (empty string for stdout). -/
structure ReadOutcome where
  output : String
  file : String
deriving DecidableEq, Repr

/-- The single-parameter branch of readCmd. -/
def handleSingleRead (cfg : Option Config) (env : String) (f0 : ReadFlags)
    (o : ReadOracle) : Except GoError ReadOutcome :=
  let f := mergeReadFlags cfg f0
  match readRegionOf f.region env with
  | .error e => .error e
  | .ok region =>
    match o.client region with
    | some e => .error ⟨"failed to create AWS client: " ++ e.msg, e.isNotFound⟩
    | none =>
      match o.get f.path with
      | .error e => .error ⟨"failed to get parameter: " ++ e.msg, e.isNotFound⟩
      | .ok value =>
        .ok ⟨"export " ++ singleReadName f ++ "=\"" ++ value ++ "\"\n", f.file⟩

/-- The body of readCmd RunE (cmd/read.go) after the config warning: with no
--path and a non-empty config params list, iterate the params; otherwise an
empty --path is an error and a set --path takes the single-parameter branch. -/
def runReadCore (cfg : Option Config) (env : String) (f : ReadFlags)
    (o : ReadOracle) : Except GoError ReadOutcome :=
  match cfg with
  | some c =>
    if f.path = "" ∧ c.params ≠ [] then
      match readParamsLoop c.region c.envPfx c.upper env o c.params f.pfx f.upper with
      | .error e => .error e
      | .ok (outs, _, _) =>
        let out := String.intercalate "\n" outs ++ "\n"
        let file := if f.file = "" ∧ c.file ≠ "" then c.file else f.file
        .ok ⟨out, file⟩
    else if f.path = "" then
      .error ⟨"required flag path not set and no parameters defined in config", false⟩
    else handleSingleRead (some c) env f o
  | none =>
    if f.path = "" then
      .error ⟨"required flag path not set and no parameters defined in config", false⟩
    else handleSingleRead none env f o

/-- readCmd RunE of cmd/read.go: a LoadConfig error only prints a warning and
the run continues with a nil config. -/
def runRead (cfgRes : Except String Config) (env : String) (f : ReadFlags)
    (o : ReadOracle) : Except GoError ReadOutcome :=
  runReadCore (cfgOrNil cfgRes) env f o

/-- Witness for C5: a failing home load, a failing local load, and an
empty-name params entry in either document each produce an error. -/
theorem loadconfig_failfast_witness :
    (∃ e, loadConfig (some (LoadResult.failed ("bad yaml"))) (LoadResult.parsed Config.empty) =
      .error e) ∧
    (∃ e, loadConfig (some LoadResult.absent) (LoadResult.failed ("bad yaml")) = .error e) ∧
    (∃ e, loadConfig
        (some (LoadResult.parsed ⟨"", "", "", "", "", none, "", "", "", [⟨"", "", "", ""⟩]⟩))
        LoadResult.absent = .error e) ∧
    (∃ e, loadConfig (some LoadResult.absent)
        (LoadResult.parsed ⟨"", "", "", "", "", none, "", "", "", [⟨"", "", "", ""⟩]⟩) =
      .error e) :=
  ⟨(loadconfig_failfast (some (LoadResult.failed ("bad yaml")))
      (LoadResult.parsed Config.empty)).1 ("bad yaml") rfl,
   (loadconfig_failfast (some LoadResult.absent) (LoadResult.failed ("bad yaml"))).2.1
      ("bad yaml") rfl,
   (loadconfig_failfast
      (some (LoadResult.parsed ⟨"", "", "", "", "", none, "", "", "", [⟨"", "", "", ""⟩]⟩))
      LoadResult.absent).2.2.1 _ rfl (by decide),
   (loadconfig_failfast (some LoadResult.absent)
      (LoadResult.parsed ⟨"", "", "", "", "", none, "", "", "", [⟨"", "", "", ""⟩]⟩)).2.2.2.1
      _ rfl (by decide)⟩

/-! ### Claim theorems for the command layer -/

/-- C1: the replica-delete not-found tolerance is broken in the code. With the
primary delete succeeding and the replica delete failing with the SDK
ParameterNotFound error, runDelete reports overall failure: DeleteParameter
(internal/aws/ssm.go) maps the SDK error to a fresh fmt.Errorf value that does
not wrap the ErrNotFound sentinel, so the errors.Is check guarding the
warn-and-succeed branch of deleteInReplicaRegion (cmd/delete.go) never fires.
The claim (and spec section 4.2) says this case must report success with a
warning. -/
theorem delete_replica_notfound_reports_failure :
    runDelete (.ok Config.empty) ""
      ⟨"/test/param", "us-west-2", "", "us-east-1"⟩
      ⟨none, none, none, some SdkDeleteErr.parameterNotFound⟩ =
      some ⟨"failed to delete parameter in replica region us-east-1: ParameterNotFound: parameter /test/param does not exist", false⟩ := by
  rfl

/-- The region of an optional config: the empty string when there is no
config. -/
def cfgRegionOf : Option Config → String
  | none => ""
  | some c => c.region

/-- Follows the spec's words (spec section 4.2, region resolution order):
explicit flag, else resolved config value, else the AWS_REGION environment
variable, else a missing-region error. -/
def specRegionOrder (flag cfgRegion env : String) : Except GoError String :=
  if flag ≠ "" then .ok flag
  else if cfgRegion ≠ "" then .ok cfgRegion
  else if env ≠ "" then .ok env
  else .error ⟨"AWS region must be specified via --region, config file, or AWS_REGION environment variable", false⟩

theorem ensure_eq_spec (flag cfgR env : String) :
    ensureRegionIsSet (if flag = "" then cfgR else flag) env =
      specRegionOrder flag cfgR env := by
  unfold ensureRegionIsSet specRegionOrder
  by_cases h1 : flag = "" <;> by_cases h2 : cfgR = "" <;> by_cases h3 : env = "" <;>
    simp [h1, h2, h3]

theorem mergeCreate_region (cfg : Option Config) (f : CreateFlags) :
    (mergeCreateConfig cfg f).region =
      (if f.region = "" then cfgRegionOf cfg else f.region) := by
  cases cfg with
  | none => by_cases h : f.region = "" <;> simp [mergeCreateConfig, cfgRegionOf, h]
  | some c =>
    by_cases h : f.region = "" <;>
      simp [mergeCreateConfig, cfgRegionOf, h, apply_ite CreateFlags.region]

theorem mergeDelete_region (cfg : Option Config) (f : DeleteFlags) :
    (mergeDeleteConfig cfg f).region =
      (if f.region = "" then cfgRegionOf cfg else f.region) := by
  cases cfg with
  | none => by_cases h : f.region = "" <;> simp [mergeDeleteConfig, cfgRegionOf, h]
  | some c =>
    by_cases h : f.region = "" <;>
      simp [mergeDeleteConfig, cfgRegionOf, h, apply_ite DeleteFlags.region]

theorem mergeModify_region (cfg : Option Config) (f : ModifyFlags) :
    (mergeModifyConfig cfg f).region =
      (if f.region = "" then cfgRegionOf cfg else f.region) := by
  cases cfg with
  | none => by_cases h : f.region = "" <;> simp [mergeModifyConfig, cfgRegionOf, h]
  | some c =>
    by_cases h : f.region = "" <;>
      simp [mergeModifyConfig, cfgRegionOf, h, apply_ite ModifyFlags.region]

theorem mergeRead_region (cfg : Option Config) (f : ReadFlags) :
    (mergeReadFlags cfg f).region =
      (if f.region = "" then cfgRegionOf cfg else f.region) := by
  cases cfg with
  | none => by_cases h : f.region = "" <;> simp [mergeReadFlags, cfgRegionOf, h]
  | some c =>
    by_cases h : f.region = "" <;>
      simp [mergeReadFlags, cfgRegionOf, h, apply_ite ReadFlags.region]

/-- C4: for every verb, the region used for the primary call is resolved as
the first present source in the order flag, then config, then the AWS_REGION
environment variable, with a missing-region error when all three are absent;
the resolution agrees with the spec-side order for all four commands. -/
theorem region_resolution_order (cfg : Option Config) (env : String)
    (fc : CreateFlags) (fd : DeleteFlags) (fm : ModifyFlags) (fr : ReadFlags) :
    ensureRegionIsSet (mergeCreateConfig cfg fc).region env =
      specRegionOrder fc.region (cfgRegionOf cfg) env ∧
    ensureDeleteRegionIsSet (mergeDeleteConfig cfg fd).region env =
      specRegionOrder fd.region (cfgRegionOf cfg) env ∧
    ensureModifyRegionIsSet (mergeModifyConfig cfg fm).region env =
      specRegionOrder fm.region (cfgRegionOf cfg) env ∧
    readRegionOf (mergeReadFlags cfg fr).region env =
      specRegionOrder fr.region (cfgRegionOf cfg) env := by
  have hd : ∀ x y, ensureDeleteRegionIsSet x y = ensureRegionIsSet x y := fun _ _ => rfl
  have hm : ∀ x y, ensureModifyRegionIsSet x y = ensureRegionIsSet x y := fun _ _ => rfl
  have hr : ∀ x y, readRegionOf x y = ensureRegionIsSet x y := fun _ _ => rfl
  refine ⟨?_, ?_, ?_, ?_⟩
  · rw [mergeCreate_region]; exact ensure_eq_spec _ _ _
  · rw [mergeDelete_region, hd]; exact ensure_eq_spec _ _ _
  · rw [mergeModify_region, hm]; exact ensure_eq_spec _ _ _
  · rw [mergeRead_region, hr]; exact ensure_eq_spec _ _ _

/-- C6 counterexample: a delete invocation whose configuration load fails
(for example an unparseable file) proceeds to the primary store delete and
reports overall success — the config error is downgraded to a printed warning,
refuting the claim that a configuration-file error is fatal for every verb. -/
theorem delete_swallows_config_error :
    runDelete (.error "failed to load global config: bad yaml") ""
      ⟨"/test/param", "us-west-2", "", ""⟩ ⟨none, none, none, none⟩ = none := by
  rfl

/-- C6 amended: a configuration-load error is fatal for create and modify
(they abort before any store call), while read and delete print a warning and
continue exactly as if no configuration file existed (nil config). -/
theorem config_error_fatality_policy (m : String) (env : String)
    (fc : CreateFlags) (oc : CreateOracle) (fm : ModifyFlags) (om : ModifyOracle)
    (fd : DeleteFlags) (od : DeleteOracle) (fr : ReadFlags) (og : ReadOracle) :
    runCreate (.error m) env fc oc = some ⟨"failed to load configuration: " ++ m, false⟩ ∧
    runModify (.error m) env fm om = some ⟨"failed to load configuration: " ++ m, false⟩ ∧
    runDelete (.error m) env fd od = runDeleteCore none env fd od ∧
    runRead (.error m) env fr og = runReadCore none env fr og := by
  exact ⟨rfl, rfl, rfl, rfl⟩

/-- C7 counterexample: in the config-params branch of read, an explicit
--upper=false flag is overridden by a config file that sets upper to true:
the derived name for a param named /a/x is the upper-cased X, not the x the
claim's CLI-wins rule demands. -/
theorem read_config_upper_overrides_flag :
    (readEntryName ⟨"/a/x", "", "", ""⟩ "" (some true) "" false).1 = "X" ∧
    (readEntryName ⟨"/a/x", "", "", ""⟩ "" (some true) "" false).1 ≠ "x" := by
  exact ⟨by decide, by decide⟩

/-- C7 amended: explicit CLI flags override file-derived values for the
string-valued flags of every handler (empty means unset), and the single-path
branch of read keeps the upper flag untouched; but in the config-params
branch of read a config-file upper setting, including explicit false,
unconditionally overrides the --upper flag value. -/
theorem cli_over_config_policy (c : Config) (fc : CreateFlags) (fd : DeleteFlags)
    (fm : ModifyFlags) (fr : ReadFlags) (p : ParamConfig) (cfgE : String)
    (cfgU : Option Bool) (pfx0 : String) (up0 : Bool) :
    ((mergeCreateConfig (some c) fc).region = if fc.region = "" then c.region else fc.region) ∧
    ((mergeCreateConfig (some c) fc).replica = if fc.replica = "" then c.replica else fc.replica) ∧
    ((mergeCreateConfig (some c) fc).role = if fc.role = "" then c.role else fc.role) ∧
    ((mergeCreateConfig (some c) fc).kms = if fc.kms = "" ∧ c.kms ≠ "" then c.kms else fc.kms) ∧
    ((mergeDeleteConfig (some c) fd).region = if fd.region = "" then c.region else fd.region) ∧
    ((mergeDeleteConfig (some c) fd).replica = if fd.replica = "" then c.replica else fd.replica) ∧
    ((mergeDeleteConfig (some c) fd).role = if fd.role = "" then c.role else fd.role) ∧
    ((mergeModifyConfig (some c) fm).region = if fm.region = "" then c.region else fm.region) ∧
    ((mergeModifyConfig (some c) fm).replica = if fm.replica = "" then c.replica else fm.replica) ∧
    ((mergeModifyConfig (some c) fm).role = if fm.role = "" then c.role else fm.role) ∧
    ((mergeReadFlags (some c) fr).region = if fr.region = "" then c.region else fr.region) ∧
    ((mergeReadFlags (some c) fr).role = if fr.role = "" then c.role else fr.role) ∧
    ((mergeReadFlags (some c) fr).pfx = if fr.pfx = "" then c.envPfx else fr.pfx) ∧
    ((mergeReadFlags (some c) fr).upper = fr.upper) ∧
    ((readEntryName p cfgE cfgU pfx0 up0).2.2 = cfgU.getD up0) := by
  refine ⟨?_, ?_, ?_, ?_, ?_, ?_, ?_, ?_, ?_, ?_, ?_, ?_, ?_, ?_, ?_⟩
  · by_cases h : fc.region = "" <;>
      simp [mergeCreateConfig, h, apply_ite CreateFlags.region]
  · by_cases h : fc.replica = "" <;>
      simp [mergeCreateConfig, h, apply_ite CreateFlags.replica]
  · by_cases h : fc.role = "" <;>
      simp [mergeCreateConfig, h, apply_ite CreateFlags.role]
  · by_cases h1 : fc.kms = "" <;> by_cases h2 : c.kms = "" <;>
      simp [mergeCreateConfig, h1, h2, apply_ite CreateFlags.kms]
  · by_cases h : fd.region = "" <;>
      simp [mergeDeleteConfig, h, apply_ite DeleteFlags.region]
  · by_cases h : fd.replica = "" <;>
      simp [mergeDeleteConfig, h, apply_ite DeleteFlags.replica]
  · by_cases h : fd.role = "" <;>
      simp [mergeDeleteConfig, h, apply_ite DeleteFlags.role]
  · by_cases h : fm.region = "" <;>
      simp [mergeModifyConfig, h, apply_ite ModifyFlags.region]
  · by_cases h : fm.replica = "" <;>
      simp [mergeModifyConfig, h, apply_ite ModifyFlags.replica]
  · by_cases h : fm.role = "" <;>
      simp [mergeModifyConfig, h, apply_ite ModifyFlags.role]
  · by_cases h : fr.region = "" <;>
      simp [mergeReadFlags, h, apply_ite ReadFlags.region]
  · by_cases h : fr.role = "" <;>
      simp [mergeReadFlags, h, apply_ite ReadFlags.role]
  · by_cases h : fr.pfx = "" <;>
      simp [mergeReadFlags, h, apply_ite ReadFlags.pfx]
  · by_cases h : fr.region = "" <;> by_cases h2 : fr.role = "" <;> by_cases h3 : fr.pfx = "" <;>
      simp [mergeReadFlags, h, h2, h3, apply_ite ReadFlags.upper]
  · cases cfgU <;> simp [readEntryName, Option.getD]

/-- C8 counterexample: a create invocation whose replica region equals its
primary region passes undetected — no region-equality error is raised and the
operation performs both store calls and reports success, refuting the claim
that the invariant is checked for every operation with a replica. -/
theorem create_equal_regions_unchecked :
    runCreate (.ok Config.empty) ""
      ⟨"/a/b", "x", "String", "", "", "us-east-1", "", "us-east-1", false⟩
      ⟨none, none, none, none⟩ = none := by
  rfl

/-- C8 amended: the replica-differs-from-primary invariant is enforced at use
time only by the modify handler, which calls validation.ValidateRegions after
region resolution and before any store call and fails when the two regions
are equal; the delete handler (and create, see the counterexample) performs
no such check and proceeds with its store calls. -/
theorem replica_region_check_only_in_modify (cfg : Option Config) (env : String)
    (fm : ModifyFlags) (om : ModifyOracle) (fd : DeleteFlags) (r rd : String)
    (hm : ensureModifyRegionIsSet (mergeModifyConfig cfg fm).region env = .ok r)
    (hrep : (mergeModifyConfig cfg fm).replica = r)
    (hne : r ≠ "")
    (hd : ensureDeleteRegionIsSet (mergeDeleteConfig cfg fd).region env = .ok rd)
    (hrepd : (mergeDeleteConfig cfg fd).replica = rd)
    (hned : rd ≠ "") :
    runModifyCore cfg env fm om =
      some ⟨"replica region " ++ r ++ " cannot be the same as primary region " ++ r, false⟩ ∧
    runDeleteCore cfg env fd ⟨none, none, none, none⟩ = none := by
  constructor
  · simp only [runModifyCore, hm, hrep]
    rw [validateRegions, if_pos ⟨hne, rfl⟩]
  · simp only [runDeleteCore, hd, hrepd, deleteInPrimaryRegion, deleteParameter,
      deleteInReplicaRegion, if_pos hned]

/-- Witness for the C8 amended theorem: with no config file, region and
replica flags both eu-west-1 for modify and for delete, modify fails with the
regions-equal error while delete succeeds. -/
theorem replica_region_check_only_in_modify_witness :
    (ensureModifyRegionIsSet
        (mergeModifyConfig none ⟨"/a/b", "v", "", "eu-west-1", "", "eu-west-1"⟩).region "" =
      .ok ("eu-west-1")) ∧
    ((mergeModifyConfig none ⟨"/a/b", "v", "", "eu-west-1", "", "eu-west-1"⟩).replica =
      "eu-west-1") ∧
    ("eu-west-1" ≠ "") ∧
    (ensureDeleteRegionIsSet
        (mergeDeleteConfig none ⟨"/a/b", "eu-west-1", "", "eu-west-1"⟩).region "" =
      .ok ("eu-west-1")) ∧
    ((mergeDeleteConfig none ⟨"/a/b", "eu-west-1", "", "eu-west-1"⟩).replica = "eu-west-1") ∧
    ("eu-west-1" ≠ "") ∧
    (runModifyCore none "" ⟨"/a/b", "v", "", "eu-west-1", "", "eu-west-1"⟩
        ⟨none, none, none, none⟩ =
      some ⟨"replica region eu-west-1 cannot be the same as primary region eu-west-1", false⟩ ∧
    runDeleteCore none "" ⟨"/a/b", "eu-west-1", "", "eu-west-1"⟩ ⟨none, none, none, none⟩ =
      none) :=
  ⟨rfl, rfl, by decide, rfl, rfl, by decide,
    replica_region_check_only_in_modify none ""
      ⟨"/a/b", "v", "", "eu-west-1", "", "eu-west-1"⟩ ⟨none, none, none, none⟩
      ⟨"/a/b", "eu-west-1", "", "eu-west-1"⟩ ("eu-west-1") ("eu-west-1")
      rfl rfl (by decide) rfl rfl (by decide)⟩

/-- C10: in both read branches, when an env prefix is in effect and upper is
in effect, the derived environment-variable name is the upper-casing of the
prefix joined to the base name with an underscore separator — the prefix is
joined with an underscore, not plain concatenation, and the upper-casing step
comes after prefixing, so it covers the prefix as well. -/
theorem read_name_derivation (p : ParamConfig) (cfgE : String) (cfgU : Option Bool)
    (pfx0 : String) (up0 : Bool) (f : ReadFlags)
    (hp : (if cfgE ≠ "" ∧ pfx0 = "" then cfgE else pfx0) ≠ "")
    (hu : cfgU.getD up0 = true)
    (hfp : f.pfx ≠ "") (hfu : f.upper = true) :
    (readEntryName p cfgE cfgU pfx0 up0).1 =
      goToUpper ((if cfgE ≠ "" ∧ pfx0 = "" then cfgE else pfx0) ++ "_" ++
        (if p.env ≠ "" then p.env else filepathBase p.name)) ∧
    singleReadName f =
      goToUpper (f.pfx ++ "_" ++ (if f.envName ≠ "" then f.envName else filepathBase f.path)) := by
  constructor
  · cases cfgU with
    | some b =>
      have hb : b = true := by simpa using hu
      subst hb
      simp only [readEntryName, if_pos hp, if_true]
    | none =>
      have hb : up0 = true := by simpa using hu
      subst hb
      simp only [readEntryName, if_pos hp, if_true]
  · simp only [singleReadName, if_pos hfp, hfu, if_true]

/-- Witness for C10: config params entry /a/b with config prefix app and
config upper true starting from flag upper false, and a single read of /m/key
with flag prefix pre and flag upper true. -/
theorem read_name_derivation_witness :
    ((if ("app" : String) ≠ "" ∧ ("" : String) = "" then ("app" : String) else "") ≠ "") ∧
    ((some true).getD false = true) ∧
    (("pre" : String) ≠ "") ∧
    ((⟨"/m/key", "", "", "", true, "pre", ""⟩ : ReadFlags).upper = true) ∧
    ((readEntryName ⟨"/a/b", "", "", ""⟩ "app" (some true) "" false).1 =
      goToUpper ((if ("app" : String) ≠ "" ∧ ("" : String) = "" then ("app" : String) else "") ++ "_" ++
        (if (⟨"/a/b", "", "", ""⟩ : ParamConfig).env ≠ ""
          then (⟨"/a/b", "", "", ""⟩ : ParamConfig).env
          else filepathBase (⟨"/a/b", "", "", ""⟩ : ParamConfig).name)) ∧
    singleReadName ⟨"/m/key", "", "", "", true, "pre", ""⟩ =
      goToUpper ((⟨"/m/key", "", "", "", true, "pre", ""⟩ : ReadFlags).pfx ++ "_" ++
        (if (⟨"/m/key", "", "", "", true, "pre", ""⟩ : ReadFlags).envName ≠ ""
          then (⟨"/m/key", "", "", "", true, "pre", ""⟩ : ReadFlags).envName
          else filepathBase (⟨"/m/key", "", "", "", true, "pre", ""⟩ : ReadFlags).path))) :=
  ⟨by decide, rfl, by decide, rfl,
    read_name_derivation ⟨"/a/b", "", "", ""⟩ "app" (some true) "" false
      ⟨"/m/key", "", "", "", true, "pre", ""⟩ (by decide) rfl (by decide) rfl⟩

end Params2env
